import Mathlib

/-!
Shallow embedding of the edge-based V2X emergency-response pipeline
(run_simulation.py, cen_broadcast.py, vehicle.py, best_erv.py): collision
detection, CEN accident registry and periodic broadcast, hop-limited V2V alert
relay, GA ambulance dispatch and ACO-style rerouting.

Python floats are modelled as exact rationals.  `ratSqrt` stands in for the
float `math.sqrt`/`math.hypot`; it is exact whenever numerator and denominator
of its argument are perfect squares, and every concrete evaluation below only
feeds it such inputs.  `float('inf')` results are modelled with `Option`
(`none` = infinite, which compares greater than any finite threshold).
Randomness (`random.random`, `random.choice`) is modelled as an oracle stream
`rand : ℕ → ℚ` of draws in `[0,1)` together with a consumption index; a
`random.choice` from a list of length `n` picks index `⌊r·n⌋`.
-/

namespace V2X

/- Restore default reducibility of the rational-arithmetic primitives so that
concrete runs of the embedded algorithms evaluate inside `decide`. -/
attribute [local semireducible] Rat.add Rat.sub Rat.mul Rat.inv

/-- Newton iteration for the integer square root, structurally recursive so
that concrete values evaluate by kernel reduction. -/
def sqrtAux : ℕ → ℕ → ℕ → ℕ
  | 0, _, guess => guess
  | fuel + 1, n, guess =>
    let next := (guess + n / guess) / 2
    if next < guess then sqrtAux fuel n next else guess

/-- Integer square root `⌊√n⌋`. -/
def natSqrt (n : ℕ) : ℕ := if n ≤ 1 then n else sqrtAux n n ((n + 1) / 2)

/-- Rational stand-in for the float square root: exact on rationals whose
numerator and denominator are perfect squares (the only inputs used in the
concrete evaluations below). -/
def ratSqrt (q : ℚ) : ℚ := (natSqrt q.num.toNat : ℚ) / (natSqrt q.den : ℚ)

abbrev Pt := ℚ × ℚ

/-- Euclidean distance `math.hypot(p1.x - p2.x, p1.y - p2.y)`. -/
def euclid (p1 p2 : Pt) : ℚ := ratSqrt ((p1.1 - p2.1) ^ 2 + (p1.2 - p2.2) ^ 2)

/-- run_simulation.py line 26. -/
def V2V_COMMUNICATION_RANGE : ℚ := 200

/-- run_simulation.py line 27. -/
def MAX_HOP_COUNT : ℕ := 5

/-- run_simulation.py line 28: `COLLISION_DISTANCE = 7.5`. -/
def COLLISION_DISTANCE : ℚ := 15 / 2

/-- Python dict assignment `m[k] = v`: an existing key keeps its position and
gets the new value, a fresh key is appended at the end. -/
def dictSet {α β : Type} [DecidableEq α] : List (α × β) → α → β → List (α × β)
  | [], k, v => [(k, v)]
  | (k', v') :: rest, k, v =>
    if k' = k then (k, v) :: rest else (k', v') :: dictSet rest k v

/-- run_simulation.py `calculate_distance`: `None` positions give
`float('inf')`, modelled as `none`. -/
def calculate_distance : Option Pt → Option Pt → Option ℚ
  | some p1, some p2 => some (euclid p1 p2)
  | _, _ => none

/-- The collision test `calculate_distance(...) < COLLISION_DISTANCE`
(an infinite distance is never below the threshold). -/
def closeB (pos1 pos2 : Option Pt) : Bool :=
  match calculate_distance pos1 pos2 with
  | some d => decide (d < COLLISION_DISTANCE)
  | none => false

/-- `tuple(sorted([vid1, vid2]))`. -/
def sortPair (a b : String) : String × String := if a ≤ b then (a, b) else (b, a)

/-- Inner loop of the collision-detection sweep (run_simulation.py lines
314-332): for a fixed `vid1`, scan every `vid2`, skip `vid1 >= vid2`, and for a
close unreported pair record it in the reported set and in `new_collisions`.
The Python `reported_collisions` set is modelled as a list used through
membership; `set.add` is a cons guarded by the non-membership test. -/
def detectInner (vid1 : String) (pos1 : Option Pt) :
    List (String × Option Pt) → List (String × String) →
      List ((String × String) × Option Pt) →
      List (String × String) × List ((String × String) × Option Pt)
  | [], reported, acc => (reported, acc)
  | (vid2, pos2) :: rest, reported, acc =>
    if vid2 ≤ vid1 then
      detectInner vid1 pos1 rest reported acc
    else
      let pair := sortPair vid1 vid2
      if closeB pos1 pos2 ∧ pair ∉ reported then
        detectInner vid1 pos1 rest (pair :: reported) (acc ++ [(pair, pos1)])
      else
        detectInner vid1 pos1 rest reported acc

/-- Outer loop of the collision-detection sweep over all `vid1`. -/
def detectOuter (all : List (String × Option Pt)) :
    List (String × Option Pt) → List (String × String) →
      List ((String × String) × Option Pt) →
      List (String × String) × List ((String × String) × Option Pt)
  | [], reported, acc => (reported, acc)
  | (vid1, pos1) :: rest, reported, acc =>
    let r := detectInner vid1 pos1 all reported acc
    detectOuter all rest r.1 r.2

/-- One collision-detection tick on a position snapshot: returns the updated
reported-pairs set and the list of new collisions (pair, accident position). -/
def detectStep (positions : List (String × Option Pt))
    (reported : List (String × String)) :
    List (String × String) × List ((String × String) × Option Pt) :=
  detectOuter positions positions reported []

/-! ### Road graph and ACO reroute (vehicle.py `Vehicle.aco_reroute`)

Segment identifiers inside the vehicle logic are `Option String`: Python keeps
`self.current_edge = None` until the first successful position update, mixes
that value into routes and blocked-edge computations, and compares it against
plain strings. -/

abbrev Seg := Option String

abbrev Graph := List (String × List (String × ℚ))

/-- `graph.get(current, [])`: `None` is never a key of the graph dict. -/
def graphGet (g : Graph) : Seg → List (String × ℚ)
  | some c => ((g.lookup c).getD [])
  | none => []

/-- `pheromone.get(n, 1.0)`.  The pheromone dict is keyed by whatever values
end up in `visited`, hence by `Seg`. -/
def pherGet (pher : List (Seg × ℚ)) (n : Seg) : ℚ := (pher.lookup n).getD 1

/-- `pheromone = {edge: 1.0 for edge in graph}`. -/
def initPher (g : Graph) : List (Seg × ℚ) := g.map (fun p => ((some p.1 : Seg), (1 : ℚ)))

/-- Inverse-CDF sampling: walk the candidates accumulating their normalized
probabilities and return the first one whose cumulative weight reaches `r`.
With exact rational arithmetic the cumulative sum of the normalized weights is
exactly 1, so for a draw `r < 1` (and positive weights) the scan always
returns `some`; the `none` fallthrough corresponds to the unreachable case in
which Python would leave `next_node` unbound. -/
def pickGo : List (String × ℚ) → List ℚ → ℚ → ℚ → Option (String × ℚ)
  | (n, c) :: ns, p :: ps, r, cum =>
    if r ≤ cum + p then some (n, c) else pickGo ns ps r (cum + p)
  | _, _, _, _ => none

/-- One ant trial (`for _ in range(MAX_HOPS)` body of `aco_reroute`): walk from
`current`, at each hop filter neighbours that are neither the blocked edge nor
already visited, sample one proportionally to
`pheromone(n)^alpha * (1/c)^beta` with `alpha = 1.0`, `beta = 2.0`, accumulate
the cost, and stop on the destination.  Returns the visited list, the cost and
the next random index. -/
def antWalk (g : Graph) (blocked dest : Seg) (pher : List (Seg × ℚ)) (rand : ℕ → ℚ) :
    ℕ → List Seg → ℚ → Seg → ℕ → List Seg × ℚ × ℕ
  | 0, visited, cost, _, k => (visited, cost, k)
  | hops + 1, visited, cost, current, k =>
    let neighbors := (graphGet g current).filter
      (fun nc => ((some nc.1 : Seg) != blocked) && !(visited.contains (some nc.1)))
    match neighbors with
    | [] => (visited, cost, k)
    | _ :: _ =>
      let probs := neighbors.map (fun nc => pherGet pher (some nc.1) ^ 1 * (1 / nc.2) ^ 2)
      let total := probs.sum
      let normed := probs.map (fun p => p / total)
      match pickGo neighbors normed (rand k) 0 with
      | none => (visited, cost, k + 1)
      | some (n, c) =>
        if (some n : Seg) = dest then (visited ++ [some n], cost + c, k + 1)
        else antWalk g blocked dest pher rand hops (visited ++ [some n]) (cost + c) (some n) (k + 1)

/-- Post-trial pheromone deposit:
`pheromone[node] = (1 - evaporation) * pheromone.get(node, 1.0) + 0.1`
with `evaporation = 0.1`, applied to every visited node. -/
def updatePher (pher : List (Seg × ℚ)) : List Seg → List (Seg × ℚ)
  | [] => pher
  | node :: rest =>
    updatePher (dictSet pher node ((1 - 1 / 10) * pherGet pher node + 1 / 10)) rest

/-- The `NUM_ANTS = 6` trial loop: keep the lowest-cost trial whose last node
is the destination (`best_cost` starts at `float('inf')`, modelled `none`). -/
def acoTrials (g : Graph) (blocked dest cur : Seg) (rand : ℕ → ℚ) :
    ℕ → List (Seg × ℚ) → Option (List Seg) → Option ℚ → ℕ →
      Option (List Seg) × ℕ
  | 0, _, best, _, k => (best, k)
  | ants + 1, pher, best, bestCost, k =>
    let w := antWalk g blocked dest pher rand 20 [cur] 0 cur k
    let visited := w.1
    let cost := w.2.1
    let better := (visited.getLast? == dest) &&
      (match bestCost with | none => true | some b => decide (cost < b))
    let best' := if better then some visited else best
    let bestCost' := if better then some cost else bestCost
    acoTrials g blocked dest cur rand ants (updatePher pher visited) best' bestCost' w.2.2

/-- Post-processing of `Vehicle.aco_reroute`: `best_route[0]` is read — on an
empty list this raises `IndexError`, modelled as `none` — then the current
edge is prepended when it is not already the first element, and every
occurrence of the blocked edge is stripped. -/
def acoFinish (cur blocked : Seg) (best : List Seg) : Option (List Seg) :=
  match best with
  | [] => none
  | b :: bs =>
    let br := if b ≠ cur then cur :: (b :: bs) else b :: bs
    some (br.filter (fun e => e != blocked))

/-- vehicle.py `Vehicle.aco_reroute`: run the `NUM_ANTS` trials; if no trial
reached the destination (`if not best_route:`, which is also triggered by an
empty list, though trials always record non-empty routes), fall back to the
existing route minus the blocked edge; then post-process with `acoFinish`.
Returns the route (or `none` for the `IndexError` raise) and the next random
index. -/
def aco_reroute (g : Graph) (blocked : Seg) (cur dest : Seg) (route : List Seg)
    (rand : ℕ → ℚ) (k : ℕ) : Option (List Seg) × ℕ :=
  let t := acoTrials g blocked dest cur rand 6 (initPher g) none none k
  let best := match t.1 with
    | some (b :: bs) => b :: bs
    | _ => route.filter (fun e => e != blocked)
  (acoFinish cur blocked best, t.2)

/-! ### Vehicle agent (vehicle.py) -/

structure Vehicle where
  veh_id : String
  destination : Seg
  current_edge : Seg
  route : List Seg
  /-- Accident ids already received; a Python set modelled as a list used
  through membership (`add` is a cons). -/
  accidents_received : List String
deriving DecidableEq, Repr

/-- Accident record stored by `CENBroadcast.register`.  `vehicles_involved` is
a Python set modelled as a list used through membership. -/
structure AccidentRecord where
  location : Pt
  last_time : ℚ
  registered_by_edge : Option String
  registered_by_name : Option String
  vehicles_involved : List String
deriving DecidableEq, Repr

/-- Per-call traffic-oracle snapshot for one vehicle: the outcomes of the
`traci` queries made during `listen_and_reroute` (a `none` models the query
raising because the vehicle left the simulation; `getPosition` is taken to be
stable within the single simulation step spanned by one call), the oracle's
verdict on `setRoute`, and the shared random stream. -/
structure TraciEnv where
  roadId : Option String
  routeOf : Option (List Seg)
  position : Option Pt
  setRouteOk : List Seg → Bool
  rand : ℕ → ℚ

/-- vehicle.py `Vehicle.update_position`: the two assignments sit in one
`try`, so a failing `getRoadID` leaves both fields, while a failing `getRoute`
after a successful `getRoadID` updates only `current_edge`. -/
def update_position (v : Vehicle) (env : TraciEnv) : Vehicle :=
  match env.roadId with
  | none => v
  | some e =>
    match env.routeOf with
    | none => { v with current_edge := some e }
    | some r => { v with current_edge := some e, route := r }

/-- vehicle.py `Vehicle.distance_to_cen`: `float('inf')` on a failed position
query is modelled as `none` (never below a finite range). -/
def distance_to_cen (env : TraciEnv) (cen_pos : Pt) : Option ℚ :=
  env.position.map (fun p => euclid p cen_pos)

/-- vehicle.py `Vehicle.map_position_to_edge` scan: `node_pos` is
`neighbors[0][0]` (a neighbour node-id string) or the node itself — never a
coordinate tuple — so both `isinstance(node_pos, tuple)` guards fail,
`dx = dy = 0` and `d = 0` for every entry; the strict `<` keeps the first
graph node.  The final `return nearest_edge if nearest_edge else
self.current_edge` is Python truthiness, so an empty-string node id also falls
back to the current edge. -/
def mapPosGo (cur : Seg) : Graph → Option ℚ → Option String → Seg
  | [], _, nearest =>
    (match nearest with
     | some n => if n = "" then cur else some n
     | none => cur)
  | (node, _) :: rest, min_dist, nearest =>
    let d : ℚ := 0
    match min_dist with
    | none => mapPosGo cur rest (some d) (some node)
    | some m =>
      if d < m then mapPosGo cur rest (some d) (some node)
      else mapPosGo cur rest min_dist nearest

def map_position_to_edge (_position : Pt) (g : Graph) (cur : Seg) : Seg :=
  mapPosGo cur g none none

/-- One observable side effect of `listen_and_reroute` on an accident it
processes: the recomputed route, whether the `setRoute` command was issued
(`new_route != old_route`) and whether the oracle accepted it. -/
structure RerouteEvent where
  acc_id : String
  newRoute : List Seg
  issued : Bool
  accepted : Bool
deriving DecidableEq, Repr

structure ListenResult where
  vehicle : Vehicle
  events : List RerouteEvent
  /-- `true` when `aco_reroute` raised `IndexError`, which propagates out of
  `listen_and_reroute` and aborts the remaining accidents. -/
  raised : Bool
deriving Repr

/-- The `for acc_id, data in cen.accidents.items()` loop of
`Vehicle.listen_and_reroute`, threading the vehicle state, the emitted
events and the random index. -/
def listenGo (env : TraciEnv) (cen_positions : List (String × Pt)) (g : Graph)
    (comm_range : ℚ) :
    List (String × AccidentRecord) → Vehicle → List RerouteEvent → ℕ → ListenResult
  | [], v, evs, _ => ⟨v, evs, false⟩
  | (acc_id, data) :: rest, v, evs, k =>
    if acc_id ∈ v.accidents_received then
      listenGo env cen_positions g comm_range rest v evs k
    else
      match data.registered_by_edge with
      | none => listenGo env cen_positions g comm_range rest v evs k
      | some be =>
        match cen_positions.lookup be with
        | none => listenGo env cen_positions g comm_range rest v evs k
        | some cpos =>
          match distance_to_cen env cpos with
          | none => listenGo env cen_positions g comm_range rest v evs k
          | some dist =>
            if dist ≤ comm_range then
              let v1 := { v with accidents_received := acc_id :: v.accidents_received }
              let blocked := map_position_to_edge data.location g v1.current_edge
              let old_route := v1.route
              let res := aco_reroute g blocked v1.current_edge v1.destination v1.route env.rand k
              match res.1 with
              | none => ⟨v1, evs, true⟩
              | some new_route =>
                if new_route ≠ old_route then
                  let v2 := { v1 with route := new_route }
                  listenGo env cen_positions g comm_range rest v2
                    (evs ++ [⟨acc_id, new_route, true, env.setRouteOk new_route⟩]) res.2
                else
                  listenGo env cen_positions g comm_range rest v1
                    (evs ++ [⟨acc_id, new_route, false, false⟩]) res.2
            else listenGo env cen_positions g comm_range rest v evs k

/-- vehicle.py `Vehicle.listen_and_reroute`: update the position, bail out if
the vehicle's own position is unknown, then walk the CEN accidents. -/
def listen_and_reroute (v : Vehicle) (env : TraciEnv)
    (accidents : List (String × AccidentRecord)) (cen_positions : List (String × Pt))
    (g : Graph) (comm_range : ℚ) : ListenResult :=
  let v0 := update_position v env
  match env.position with
  | none => ⟨v0, [], false⟩
  | some _ => listenGo env cen_positions g comm_range accidents v0 [] 0

/-- One environment for one `listen_and_reroute` call in a trace. -/
structure ListenCall where
  env : TraciEnv
  accidents : List (String × AccidentRecord)
  cen_positions : List (String × Pt)
  graph : Graph
  comm_range : ℚ

/-- A sequence of `listen_and_reroute` calls on one vehicle; collects the
final vehicle and every emitted event. -/
def runTrace : Vehicle → List ListenCall → Vehicle × List RerouteEvent
  | v, [] => (v, [])
  | v, c :: cs =>
    let r := listen_and_reroute v c.env c.accidents c.cen_positions c.graph c.comm_range
    let rest := runTrace r.vehicle cs
    (rest.1, r.events ++ rest.2)

/-- The events of a call that concern one accident id. -/
def eventsFor (a : String) (evs : List RerouteEvent) : List RerouteEvent :=
  evs.filter (fun e => e.acc_id == a)

/-! ### CEN registry and broadcast (cen_broadcast.py) -/

structure CEN where
  interval : ℚ
  accidents : List (String × AccidentRecord)
  edge_nodes : List (String × Pt)
deriving Repr

def edgecen_names : List (String × String) :=
  [("EdgeNode_A", "EdgeCEN_A"), ("EdgeNode_D", "EdgeCEN_D"),
   ("EdgeNode_C", "EdgeCEN_C"), ("EdgeNode_I", "EdgeCEN_I")]

/-- `CENBroadcast.get_nearest_edge_node`: minimum Euclidean distance with
strict `<` (`min_dist` starts at `float('inf')`, modelled `none`), so ties
keep the earlier node; `None` when there are no edge nodes. -/
def nearestGo (pos : Pt) : List (String × Pt) → Option ℚ → Option String → Option String
  | [], _, best => best
  | (eid, p) :: rest, min_dist, best =>
    let d := euclid pos p
    match min_dist with
    | none => nearestGo pos rest (some d) (some eid)
    | some m =>
      if d < m then nearestGo pos rest (some d) (some eid)
      else nearestGo pos rest min_dist best

def get_nearest_edge_node (cen : CEN) (position : Pt) : Option String :=
  nearestGo position cen.edge_nodes none none

/-- `CENBroadcast.register`: store the accident under its id with the nearest
edge node as registering node; `edgecen_names.get(edge, edge)` maps a missing
key (and `None`, for which `dict.get(None, None)` is `None`) to itself. -/
def register (cen : CEN) (accident_id : String) (location : Pt) (sim_time : ℚ)
    (vehicles_involved : List String) : CEN :=
  let registering_edge := get_nearest_edge_node cen location
  let registering_name : Option String :=
    match registering_edge with
    | some e => some ((edgecen_names.lookup e).getD e)
    | none => none
  { cen with
      accidents := dictSet cen.accidents accident_id
        ⟨location, sim_time, registering_edge, registering_name, vehicles_involved⟩ }

/-- Vehicle loop of `CENBroadcast.broadcast` for one due accident.  Everything
sits in a bare `try/except: continue`: a failing `getPosition`, a missing (or
`None`) registering edge, and crucially the notification call itself —
`vehicle.listen_and_reroute(..., accident_edge=acc_id, ...)` passes a keyword
argument `listen_and_reroute` does not accept, so the call raises `TypeError`
before entering the method body and the `except` swallows it.  The returned
list is a ghost record of the (acc_id, vehicle) pairs for which that doomed
call was attempted; no vehicle state is ever touched. -/
def broadcastVehicles (env_pos : String → Option Pt) (edge_nodes : List (String × Pt))
    (data : AccidentRecord) (acc_id : String) (comm_range : ℚ)
    (vehicles_dict : List (String × Vehicle)) : List (String × String) :=
  vehicles_dict.filterMap (fun p =>
    if p.1 ∈ data.vehicles_involved then none
    else
      match env_pos p.1 with
      | none => none
      | some vp =>
        match data.registered_by_edge with
        | none => none
        | some be =>
          match edge_nodes.lookup be with
          | none => none
          | some cp =>
            if euclid vp cp ≤ comm_range then some (acc_id, p.1) else none)

/-- The `for acc_id, data in self.accidents.items()` loop of
`CENBroadcast.broadcast`: process an accident only when
`sim_time - last_time >= interval`; the edge-node notification (a) is
print-only, the vehicle loop (b) is `broadcastVehicles`, and afterwards
`last_time` is reset to `sim_time`.  Accidents not yet due are untouched. -/
def broadcastGo (interval : ℚ) (edge_nodes : List (String × Pt)) (sim_time : ℚ)
    (vehicles_dict : List (String × Vehicle)) (env_pos : String → Option Pt)
    (comm_range : ℚ) :
    List (String × AccidentRecord) →
      List (String × AccidentRecord) × List (String × String)
  | [] => ([], [])
  | (acc_id, data) :: rest =>
    let r := broadcastGo interval edge_nodes sim_time vehicles_dict env_pos comm_range rest
    if interval ≤ sim_time - data.last_time then
      ((acc_id, { data with last_time := sim_time }) :: r.1,
        broadcastVehicles env_pos edge_nodes data acc_id comm_range vehicles_dict ++ r.2)
    else
      ((acc_id, data) :: r.1, r.2)

/-- `CENBroadcast.broadcast`.  The vehicles are returned unchanged because the
per-vehicle notification call always raises `TypeError` (see
`broadcastVehicles`); the last component is the ghost list of attempted
notifications. -/
def broadcast (cen : CEN) (sim_time : ℚ) (vehicles_dict : List (String × Vehicle))
    (env_pos : String → Option Pt) (comm_range : ℚ) :
    CEN × List (String × Vehicle) × List (String × String) :=
  let r := broadcastGo cen.interval cen.edge_nodes sim_time vehicles_dict env_pos
    comm_range cen.accidents
  ({ cen with accidents := r.1 }, vehicles_dict, r.2)

/-! ### V2V alert relay (run_simulation.py `V2VMessage`, `propagate_v2v_message`)

The message `timestamp` and the edge-node counters
(`total_messages_received`, `unique_accidents_reported`,
`accident_alerts_received`, `hop_count_stats`) are observational logging not
used by any verified claim and are omitted; the dedup `message_cache` and the
`message_history` audit list are modelled. -/

structure V2VMessage where
  message_id : String
  source_id : String
  message_type : String
  payload_accident_id : String
  origin_location : Pt
  hop_count : ℕ
  propagation_path : List String
  reached_edge_node : Bool
deriving DecidableEq, Repr

/-- The `V2VMessage.__init__` constructor: hop count 0, path `[source_id]`. -/
def mkV2VMessage (message_id source_id message_type payload_accident_id : String)
    (origin_location : Pt) : V2VMessage :=
  ⟨message_id, source_id, message_type, payload_accident_id, origin_location,
    0, [source_id], false⟩

/-- `V2VMessage.increment_hop`: add one hop and append the node to the path. -/
def increment_hop (m : V2VMessage) (next_node : String) : V2VMessage :=
  { m with
      hop_count := m.hop_count + 1,
      propagation_path := m.propagation_path ++ [next_node] }

/-- The relay-clone construction of `propagate_v2v_message` (run_simulation.py
lines 170-179): build a fresh message, overwrite `hop_count` with the parent's
plus one and `propagation_path` with the parent's copy, then call
`increment_hop` — which bumps `hop_count` a second time. -/
def relayClone (message : V2VMessage) (vehicle_id : String) : V2VMessage :=
  let next := mkV2VMessage message.message_id vehicle_id message.message_type
    message.payload_accident_id message.origin_location
  let next := { next with
      hop_count := message.hop_count + 1,
      propagation_path := message.propagation_path }
  increment_hop next vehicle_id

/-- Static environment for a propagation attempt: edge-node and vehicle
positions (a vehicle with no entry models a failed `getPosition`). -/
structure PropEnv where
  edge_nodes : List (String × Pt)
  vehicle_positions : List (String × Pt)

/-- Mutable relay state: the per-edge-node message-id caches and the flattened
`message_history` audit list (each clone is appended to the list under its
message id). -/
structure PropState where
  caches : List (String × List String)
  history : List V2VMessage
deriving Repr

/-- Stable insertion used to model Python's stable `list.sort(key=...)`. -/
def insertByDist {α : Type} (key : α → ℚ) (x : α) : List α → List α
  | [] => [x]
  | y :: ys => if key x < key y then x :: y :: ys else y :: insertByDist key x ys

def sortByDist {α : Type} (key : α → ℚ) (l : List α) : List α :=
  l.foldl (fun acc x => insertByDist key x acc) []

/-- `find_edge_nodes_in_range`: edge nodes within `V2V_COMMUNICATION_RANGE`,
sorted by ascending distance. -/
def find_edge_nodes_in_range (env : PropEnv) (position : Pt) : List (String × ℚ) :=
  sortByDist (fun p => p.2)
    (env.edge_nodes.filterMap (fun p =>
      let d := euclid position p.2
      if d ≤ V2V_COMMUNICATION_RANGE then some (p.1, d) else none))

/-- `find_vehicles_in_range`: non-ambulance vehicles other than the sender
within range, sorted by ascending distance, with their positions. -/
def find_vehicles_in_range (env : PropEnv) (source_position : Pt) (exclude : String) :
    List (String × ℚ × Pt) :=
  sortByDist (fun p => p.2.1)
    (env.vehicle_positions.filterMap (fun p =>
      if p.1 == exclude || p.1.startsWith "ambulance" then none
      else
        let d := euclid source_position p.2
        if d ≤ V2V_COMMUNICATION_RANGE then some (p.1, d, p.2) else none))

def cacheOf (st : PropState) (eid : String) : List String :=
  (st.caches.lookup eid).getD []

/-- The edge-node delivery loop: the first in-range node whose cache does not
hold the message id receives it (cache add, counters incremented — logging
only) and the relay returns success. -/
def deliverToEdge (msg_id : String) (st : PropState) :
    List (String × ℚ) → Option PropState
  | [] => none
  | (eid, _) :: rest =>
    if msg_id ∈ cacheOf st eid then deliverToEdge msg_id st rest
    else some { st with caches := dictSet st.caches eid (msg_id :: cacheOf st eid) }

/-- The candidate-vehicle loop of `propagate_v2v_message`: skip path members,
clone the message, append the clone to the history, recurse (`recurse` is the
propagation at one smaller fuel), stop at the first success, and keep the
state mutations of failed branches. -/
def propLoop (recurse : V2VMessage → String → Pt → PropState → Bool × PropState)
    (message : V2VMessage) :
    List (String × ℚ × Pt) → PropState → Bool × PropState
  | [], st => (false, st)
  | (vid, _, vpos) :: rest, st =>
    if vid ∈ message.propagation_path then propLoop recurse message rest st
    else
      let next := relayClone message vid
      let st1 := { st with history := st.history ++ [next] }
      let r := recurse next vid vpos st1
      if r.1 then (true, r.2) else propLoop recurse message rest r.2

/-- run_simulation.py `propagate_v2v_message`.  The fuel argument only bounds
the Lean recursion; the Python recursion is already bounded by the
`hop_count >= MAX_HOP_COUNT` guard, so any fuel larger than the remaining hop
budget gives the Python semantics. -/
def propagate (env : PropEnv) :
    ℕ → V2VMessage → String → Pt → PropState → Bool × PropState
  | 0, _, _, _, st => (false, st)
  | fuel + 1, message, current_vehicle_id, current_position, st =>
    if MAX_HOP_COUNT ≤ message.hop_count then (false, st)
    else
      match deliverToEdge message.message_id st
          (find_edge_nodes_in_range env current_position) with
      | some st' => (true, st')
      | none =>
        propLoop (propagate env fuel) message
          (find_vehicles_in_range env current_position current_vehicle_id) st

/-! ### GA dispatch (best_erv.py) -/

def POP_SIZE : ℕ := 20
def GENERATIONS : ℕ := 30
def TOURNAMENT_K : ℕ := 3
def CROSSOVER_RATE : ℚ := 4 / 5
def MUTATION_RATE : ℚ := 1 / 10

def ambulance_readiness : List (String × ℚ) :=
  [("ambulance0", 85), ("ambulance1", 70), ("ambulance2", 90)]

def ambulance_anchor_edges : List (String × String) :=
  [("ambulance0", "A_B"), ("ambulance1", "D_G"), ("ambulance2", "H_I")]

/-- `list(ambulance_readiness.keys())`. -/
def ambulanceKeys : List String := ambulance_readiness.map Prod.fst

/-- Congestion-oracle snapshot for `fitness`: `segOf` is the outcome of
`traci.vehicle.getRoadID` (`none` = the query raised) and `congestionOf` the
fuzzy estimator `get_fuzzy_congestion`, consumed as a black box (its own
failures are folded into `segOf = none`, both land in the same `except`). -/
structure CongestionEnv where
  segOf : String → Option String
  congestionOf : String → ℚ

/-- The `try/except` congestion query of `fitness`: default `5.0` when the
oracle raises. -/
def congVal (env : CongestionEnv) (individual : String) : ℚ :=
  match env.segOf individual with
  | some e => env.congestionOf e
  | none => 5

/-- The accident-edge bonus of best_erv.py `fitness`: `1.0` when the anchor
equals the accident edge, `0.5` when the first characters agree or the last
characters agree (`anchor_edge[0] == accident_edge[0] or anchor_edge[-1] ==
accident_edge[-1]`), else `0`; `if accident_edge:` is Python truthiness, so
`None` and the empty string give `0`.  A `none` anchor would make Python raise
`TypeError`, but every id the GA can produce has an anchor; it is mapped to
`0` here. -/
def edge_bonus (anchor_edge : Option String) (accident_edge : Option String) : ℚ :=
  match accident_edge with
  | none => 0
  | some ae =>
    if ae = "" then 0
    else
      match anchor_edge with
      | none => 0
      | some an =>
        if an = ae then 1
        else if an.data.head? = ae.data.head? ∨ an.data.getLast? = ae.data.getLast?
          then 1 / 2
        else 0

/-- best_erv.py `fitness`: readiness/100 − distance/200 − congestion/10 +
edge bonus; `-9999.0` sentinel when the ambulance has no known position. -/
def fitness (env : CongestionEnv) (individual : String) (accident_x accident_y : ℚ)
    (positions : List (String × Pt)) (accident_edge : Option String) : ℚ :=
  match positions.lookup individual with
  | none => -9999
  | some pos =>
    let dist := ratSqrt ((pos.1 - accident_x) ^ 2 + (pos.2 - accident_y) ^ 2)
    let readiness := (ambulance_readiness.lookup individual).getD 50
    readiness / 100 - dist / 200 - congVal env individual / 10
      + edge_bonus (ambulance_anchor_edges.lookup individual) accident_edge

/-- Modelled from the spec: the claim's edge bonus — `1.0` when the anchor
segment equals the accident segment, `0.5` when the two segments share an
endpoint node, else `0`.  Segments are named `X_Y` after their two endpoint
nodes, so the endpoints are the first and the last character of the id. -/
def edge_bonus_specShare (anchor_edge : Option String) (accident_edge : Option String) : ℚ :=
  match anchor_edge, accident_edge with
  | some an, some ae =>
    if an = ae then 1
    else if an ≠ "" ∧ ae ≠ "" ∧
        (an.data.head? = ae.data.head? ∨ an.data.head? = ae.data.getLast? ∨
         an.data.getLast? = ae.data.head? ∨ an.data.getLast? = ae.data.getLast?)
      then 1 / 2
    else 0
  | _, _ => 0

/-- Modelled from the spec: the fitness formula of the claim with the
share-an-endpoint bonus. -/
def fitness_specShare (env : CongestionEnv) (individual : String)
    (accident_x accident_y : ℚ) (positions : List (String × Pt))
    (accident_edge : Option String) : ℚ :=
  match positions.lookup individual with
  | none => -9999
  | some pos =>
    let dist := ratSqrt ((pos.1 - accident_x) ^ 2 + (pos.2 - accident_y) ^ 2)
    let readiness := (ambulance_readiness.lookup individual).getD 50
    readiness / 100 - dist / 200 - congVal env individual / 10
      + edge_bonus_specShare (ambulance_anchor_edges.lookup individual) accident_edge

/-- The spec's fitness formula, amended: the `0.5` bonus requires the two
segment ids to agree on their first characters or agree on their last
characters (so the anchors' first endpoint equals the accident's first
endpoint, or last equals last), not merely to share an endpoint; sharing is
also not granted for an absent or empty accident segment. -/
def fitness_specAmended (env : CongestionEnv) (individual : String)
    (accident_x accident_y : ℚ) (positions : List (String × Pt))
    (accident_edge : Option String) : ℚ :=
  match positions.lookup individual with
  | none => -9999
  | some pos =>
    let readinessPart := ((ambulance_readiness.lookup individual).getD 50) / 100
    let distancePenalty := ratSqrt ((pos.1 - accident_x) ^ 2 + (pos.2 - accident_y) ^ 2) / 200
    let congestionPenalty := congVal env individual / 10
    let bonus : ℚ :=
      match accident_edge, ambulance_anchor_edges.lookup individual with
      | some ae, some an =>
        if ae = "" then 0
        else if an = ae then 1
        else if an.data.head? = ae.data.head? ∨ an.data.getLast? = ae.data.getLast?
          then 1 / 2
        else 0
      | _, _ => 0
    readinessPart - distancePenalty - congestionPenalty + bonus

/-- `random.choice(l)` under the draw `r`: index `⌊r·|l|⌋` (clamped; the clamp
and the `""` default are unreachable for draws in `[0,1)` on the non-empty
lists the GA uses). -/
def pyChoice (l : List String) (r : ℚ) : String :=
  l.getD (min (Int.floor (r * (l.length : ℚ))).toNat (l.length - 1)) ""

/-- The `TOURNAMENT_K - 1` challenger rounds of `tournament_selection`. -/
def tournamentGo (pop : List String) (fit : String → ℚ) (rand : ℕ → ℚ) :
    ℕ → String → ℕ → String × ℕ
  | 0, best, k => (best, k)
  | n + 1, best, k =>
    let challenger := pyChoice pop (rand k)
    tournamentGo pop fit rand n (if fit best < fit challenger then challenger else best) (k + 1)

/-- best_erv.py `tournament_selection` (fitness values are looked up in the
per-generation dict, i.e. recomputed deterministically per individual). -/
def tournament_selection (pop : List String) (fit : String → ℚ) (rand : ℕ → ℚ)
    (k : ℕ) : String × ℕ :=
  tournamentGo pop fit rand (TOURNAMENT_K - 1) (pyChoice pop (rand k)) (k + 1)

/-- best_erv.py `crossover`. -/
def crossover (p1 p2 : String) (rand : ℕ → ℚ) (k : ℕ) : String × ℕ :=
  if rand k < CROSSOVER_RATE then (pyChoice [p1, p2] (rand (k + 1)), k + 2)
  else (p1, k + 1)

/-- best_erv.py `mutate`. -/
def mutate (individual : String) (rand : ℕ → ℚ) (k : ℕ) : String × ℕ :=
  if rand k < MUTATION_RATE then (pyChoice ambulanceKeys (rand (k + 1)), k + 2)
  else (individual, k + 1)

/-- The `while len(new_population) < POP_SIZE` child-building loop. -/
def buildChildren (pop : List String) (fit : String → ℚ) (rand : ℕ → ℚ) :
    ℕ → List String → ℕ → List String × ℕ
  | 0, acc, k => (acc, k)
  | n + 1, acc, k =>
    let t1 := tournament_selection pop fit rand k
    let t2 := tournament_selection pop fit rand t1.2
    let c := crossover t1.1 t2.1 rand t2.2
    let m := mutate c.1 rand c.2
    buildChildren pop fit rand n (acc ++ [m.1]) m.2

/-- The `for _ in range(GENERATIONS)` loop. -/
def evolve (fit : String → ℚ) (rand : ℕ → ℚ) : ℕ → List String → ℕ → List String × ℕ
  | 0, pop, k => (pop, k)
  | g + 1, pop, k =>
    let b := buildChildren pop fit rand POP_SIZE [] k
    evolve fit rand g b.1 b.2

/-- The initial population: `POP_SIZE` uniform choices from the ambulance
ids. -/
def initPop (rand : ℕ → ℚ) : ℕ → List String → ℕ → List String × ℕ
  | 0, acc, k => (acc, k)
  | n + 1, acc, k => initPop rand n (acc ++ [pyChoice ambulanceKeys (rand k)]) (k + 1)

/-- The population after the final generation of `select_best_ambulance`. -/
def finalPopulation (env : CongestionEnv) (accident_x accident_y : ℚ)
    (positions : List (String × Pt)) (accident_edge : Option String)
    (rand : ℕ → ℚ) : List String :=
  let fit := fun ind => fitness env ind accident_x accident_y positions accident_edge
  let ip := initPop rand POP_SIZE [] 0
  (evolve fit rand GENERATIONS ip.1 ip.2).1

/-- The key order of the dict comprehension `{ind: ... for ind in population}`:
first occurrences, in population order. -/
def dedupFirstGo (seen : List String) : List String → List String
  | [] => []
  | x :: xs => if x ∈ seen then dedupFirstGo seen xs else x :: dedupFirstGo (x :: seen) xs

def dedupFirst (l : List String) : List String := dedupFirstGo [] l

/-- `max(d, key=d.get)` over an insertion-ordered dict: the first key whose
value a strictly greater value never follows; `none` on an empty dict (Python
would raise, but the population always has `POP_SIZE` members). -/
def pyMax : List String → (String → ℚ) → Option String
  | [], _ => none
  | x :: xs, f => some (xs.foldl (fun best y => if f best < f y then y else best) x)

/-- best_erv.py `select_best_ambulance`. -/
def select_best_ambulance (env : CongestionEnv) (accident_x accident_y : ℚ)
    (positions : List (String × Pt)) (accident_edge : Option String)
    (rand : ℕ → ℚ) : Option String :=
  let fit := fun ind => fitness env ind accident_x accident_y positions accident_edge
  pyMax (dedupFirst (finalPopulation env accident_x accident_y positions accident_edge rand)) fit

/-! ### Concrete scenario data for counterexamples and witnesses -/

def cenW : CEN :=
  ⟨10, [("ACC_001", ⟨(5, 5), 1, some "EdgeNode_A", some "EdgeCEN_A", ["veh7"]⟩)],
    [("EdgeNode_A", (0, 0))]⟩

def vC6 : Vehicle := ⟨"w", some "B", none, [], ["ACC0"]⟩

def callC6 : ListenCall := ⟨⟨none, none, none, fun _ => false, fun _ => 0⟩, [], [], [], 200⟩

def envC9 : TraciEnv :=
  ⟨some "A", some [some "A", some "X"], some (0, 0), fun _ => false, fun _ => 0⟩

def recC9 : AccidentRecord := ⟨(0, 0), 0, some "E", some "EdgeCEN_E", []⟩

def vC9 : Vehicle := ⟨"v", some "B", none, [], []⟩

def envC1 : PropEnv :=
  ⟨[], [("veh0", (0, 0)), ("veh1", (0, 0)), ("veh2", (0, 0)), ("veh3", (0, 0))]⟩

def msgC1 : V2VMessage := mkV2VMessage "EMERGENCY_1" "veh0" "EMERGENCY" "ACC_001" (0, 0)

def envC3 : CongestionEnv := ⟨fun _ => none, fun _ => 0⟩

def vehC7 : Vehicle := ⟨"vehB", some "B", none, [], []⟩

def cenC7 : CEN :=
  ⟨10,
    [("ACC_001", ⟨(0, 0), 0, some "EdgeNode_A", some "EdgeCEN_A", ["vehA"]⟩),
     ("ACC_002", ⟨(0, 0), 5, some "EdgeNode_A", some "EdgeCEN_A", []⟩)],
    [("EdgeNode_A", (0, 0))]⟩

def posC7 : String → Option Pt := fun v => if v = "vehB" then some (0, 0) else none

def posC4 : List (String × Pt) := [("ambulance2", (0, 0))]

def posC4w : List (String × Pt) := [("ambulance0", (0, 0))]

/-! ## Lemmas and claim theorems -/

/-! ### C5: collision detection is idempotent on an unchanged snapshot -/

theorem detectInner_mono (v1 : String) (p1 : Option Pt)
    (l : List (String × Option Pt)) (reported : List (String × String))
    (acc : List ((String × String) × Option Pt)) (x : String × String)
    (hx : x ∈ reported) : x ∈ (detectInner v1 p1 l reported acc).1 := by
  induction l generalizing reported acc with
  | nil => exact hx
  | cons hd tl ih =>
    obtain ⟨v2, p2⟩ := hd
    simp only [detectInner]
    split
    · exact ih reported acc hx
    · split
      · exact ih _ _ (List.mem_cons_of_mem _ hx)
      · exact ih reported acc hx

theorem detectInner_covers (v1 : String) (p1 : Option Pt)
    (l : List (String × Option Pt)) (reported : List (String × String))
    (acc : List ((String × String) × Option Pt)) (v2 : String) (p2 : Option Pt)
    (hmem : (v2, p2) ∈ l) (hlt : ¬ v2 ≤ v1) (hclose : closeB p1 p2 = true) :
    sortPair v1 v2 ∈ (detectInner v1 p1 l reported acc).1 := by
  induction l generalizing reported acc with
  | nil => cases hmem
  | cons hd tl ih =>
    obtain ⟨w, q⟩ := hd
    rcases List.mem_cons.mp hmem with heq | htl
    · obtain ⟨rfl, rfl⟩ := Prod.mk.injEq .. ▸ heq
      simp only [detectInner]
      split
      · exact absurd (by assumption) hlt
      · split
        · exact detectInner_mono _ _ _ _ _ _ (List.mem_cons_self _ _)
        · rename_i hcond
          have hin : sortPair v1 v2 ∈ reported := by
            by_contra hnot
            exact hcond ⟨hclose, hnot⟩
          exact detectInner_mono _ _ _ _ _ _ hin
    · simp only [detectInner]
      split
      · exact ih reported acc htl
      · split
        · exact ih _ _ htl
        · exact ih reported acc htl

theorem detectInner_noop (v1 : String) (p1 : Option Pt)
    (l : List (String × Option Pt)) (reported : List (String × String))
    (acc : List ((String × String) × Option Pt))
    (h : ∀ v2 p2, (v2, p2) ∈ l → ¬ v2 ≤ v1 → closeB p1 p2 = true →
      sortPair v1 v2 ∈ reported) :
    detectInner v1 p1 l reported acc = (reported, acc) := by
  induction l with
  | nil => rfl
  | cons hd tl ih =>
    obtain ⟨v2, p2⟩ := hd
    simp only [detectInner]
    split
    · exact ih fun w q hw => h w q (List.mem_cons_of_mem _ hw)
    · rename_i hle
      split
      · rename_i hcond
        exact absurd (h v2 p2 (List.mem_cons_self _ _) hle hcond.1) hcond.2
      · exact ih fun w q hw => h w q (List.mem_cons_of_mem _ hw)

theorem detectOuter_mono (all l : List (String × Option Pt))
    (reported : List (String × String))
    (acc : List ((String × String) × Option Pt)) (x : String × String)
    (hx : x ∈ reported) : x ∈ (detectOuter all l reported acc).1 := by
  induction l generalizing reported acc with
  | nil => exact hx
  | cons hd tl ih =>
    obtain ⟨v1, p1⟩ := hd
    simp only [detectOuter]
    exact ih _ _ (detectInner_mono _ _ _ _ _ _ hx)

theorem detectOuter_covers (all l : List (String × Option Pt))
    (reported : List (String × String))
    (acc : List ((String × String) × Option Pt))
    (v1 v2 : String) (p1 p2 : Option Pt)
    (h1 : (v1, p1) ∈ l) (h2 : (v2, p2) ∈ all) (hlt : ¬ v2 ≤ v1)
    (hclose : closeB p1 p2 = true) :
    sortPair v1 v2 ∈ (detectOuter all l reported acc).1 := by
  induction l generalizing reported acc with
  | nil => cases h1
  | cons hd tl ih =>
    obtain ⟨w, q⟩ := hd
    rcases List.mem_cons.mp h1 with heq | htl
    · obtain ⟨rfl, rfl⟩ := Prod.mk.injEq .. ▸ heq
      simp only [detectOuter]
      exact detectOuter_mono _ _ _ _ _
        (detectInner_covers _ _ _ _ _ _ _ h2 hlt hclose)
    · simp only [detectOuter]
      exact ih _ _ htl

theorem detectOuter_noop (all l : List (String × Option Pt))
    (reported : List (String × String))
    (acc : List ((String × String) × Option Pt))
    (h : ∀ v1 p1 v2 p2, (v1, p1) ∈ l → (v2, p2) ∈ all → ¬ v2 ≤ v1 →
      closeB p1 p2 = true → sortPair v1 v2 ∈ reported) :
    detectOuter all l reported acc = (reported, acc) := by
  induction l with
  | nil => rfl
  | cons hd tl ih =>
    obtain ⟨v1, p1⟩ := hd
    simp only [detectOuter]
    rw [detectInner_noop v1 p1 all reported acc
      (fun v2 p2 hm hlt hc => h v1 p1 v2 p2 (List.mem_cons_self _ _) hm hlt hc)]
    exact ih fun w q v2 p2 hw hm hlt hc =>
      h w q v2 p2 (List.mem_cons_of_mem _ hw) hm hlt hc

/-- C5: for every unordered pair of vehicles closer than the collision
threshold, the coordinator creates an accident exactly once per run — running
the detection step a second time on an unchanged position snapshot reports no
new collision and leaves the reported-pairs set unchanged. -/
theorem c5_detection_idempotent (positions : List (String × Option Pt))
    (reported0 : List (String × String)) :
    detectStep positions (detectStep positions reported0).1
      = ((detectStep positions reported0).1, []) := by
  unfold detectStep
  apply detectOuter_noop
  intro v1 p1 v2 p2 h1 h2 hlt hclose
  exact detectOuter_covers positions positions reported0 [] v1 v2 p1 p2 h1 h2 hlt hclose

/-! ### C10: re-registering an accident id replaces its record and frames the rest -/

theorem dictSet_lookup_self (m : List (String × AccidentRecord)) (k : String)
    (v : AccidentRecord) : (dictSet m k v).lookup k = some v := by
  induction m with
  | nil => simp [dictSet, List.lookup]
  | cons hd tl ih =>
    obtain ⟨k', v'⟩ := hd
    by_cases h : k' = k
    · subst h
      simp [dictSet, List.lookup]
    · simp [dictSet, h, List.lookup, beq_eq_false_iff_ne.mpr (Ne.symm h), ih]

theorem dictSet_lookup_other (m : List (String × AccidentRecord)) (k other : String)
    (v : AccidentRecord) (h : other ≠ k) :
    (dictSet m k v).lookup other = m.lookup other := by
  induction m with
  | nil => simp [dictSet, List.lookup, beq_eq_false_iff_ne.mpr h]
  | cons hd tl ih =>
    obtain ⟨k', v'⟩ := hd
    by_cases hk : k' = k
    · subst hk
      simp [dictSet, List.lookup, beq_eq_false_iff_ne.mpr h]
    · by_cases ho : other = k'
      · subst ho
        simp [dictSet, hk, List.lookup]
      · simp [dictSet, hk, List.lookup, beq_eq_false_iff_ne.mpr ho, ih]

/-- C10: calling `register` again with an already-registered accident id
silently replaces the stored record for that id — location, time, registering
node and name, involved-vehicle set all taken from the new call — while the
records of all other accident ids are unchanged. -/
theorem c10_register_replaces_and_frames (cen : CEN) (accident_id : String)
    (location : Pt) (sim_time : ℚ) (vehicles_involved : List String) :
    ((register cen accident_id location sim_time vehicles_involved).accidents.lookup
        accident_id
      = some
          ⟨location, sim_time, get_nearest_edge_node cen location,
            (match get_nearest_edge_node cen location with
             | some e => some ((edgecen_names.lookup e).getD e)
             | none => none),
            vehicles_involved⟩)
    ∧ ∀ other, other ≠ accident_id →
        (register cen accident_id location sim_time vehicles_involved).accidents.lookup
            other
          = cen.accidents.lookup other := by
  constructor
  · exact dictSet_lookup_self cen.accidents accident_id _
  · intro other h
    exact dictSet_lookup_other cen.accidents accident_id other _ h

/-- Witness for C10 at a concrete state: re-registering `ACC_001` overwrites
its record and a fresh id leaves it alone. -/
theorem c10_register_witness :
    (register cenW "ACC_002" (0, 0) 5 ["veh1"]).accidents.lookup "ACC_001"
      = cenW.accidents.lookup "ACC_001" :=
  (c10_register_replaces_and_frames cenW "ACC_002" (0, 0) 5 ["veh1"]).2 "ACC_001"
    (by decide)

/-! ### C2: the reroute result avoids the blocked segment and starts at the
current segment — unless the two coincide -/

/-- C2 counterexample: with the current segment also being the blocked one
(which `listen_and_reroute` does produce: the blocked edge is whatever
`map_position_to_edge` yields, independent of the vehicle), the final
blocked-edge strip removes the freshly prepended current segment, so the
returned route does not start at the current segment. -/
theorem c2_blocked_equals_current_cex :
    (aco_reroute [("A", [("B", 1)])] (some "A") (some "A") (some "B") []
        (fun _ => 0) 0).1 = some [some "B"]
    ∧ ([some "B"] : List Seg).head? ≠ some (some "A") := by
  constructor
  · set_option maxRecDepth 40000 in decide
  · decide

theorem acoFinish_head_and_not_blocked (cur blocked : Seg) (best : List Seg)
    (rt : List Seg) (hne : cur ≠ blocked)
    (hres : acoFinish cur blocked best = some rt) :
    rt.head? = some cur ∧ blocked ∉ rt := by
  match best, hres with
  | b :: bs, hres =>
    simp only [acoFinish, Option.some.injEq] at hres
    subst hres
    have hcur : ((cur != blocked) = true) := bne_iff_ne.mpr hne
    constructor
    · by_cases hb : b = cur
      · subst hb
        simp [List.filter_cons, hcur]
      · simp [hb, List.filter_cons, hcur]
    · intro hmem
      have := List.of_mem_filter hmem
      simp at this

/-- C2 (amended): provided the blocked segment differs from the vehicle's
current segment, every route `aco_reroute` returns starts at the current
segment and contains no occurrence of the blocked segment (when they
coincide, the current segment itself is stripped from the front). -/
theorem c2_route_avoids_block_and_starts_at_current (g : Graph)
    (blocked cur dest : Seg) (route : List Seg) (rand : ℕ → ℚ) (k : ℕ)
    (rt : List Seg) (hne : cur ≠ blocked)
    (hres : (aco_reroute g blocked cur dest route rand k).1 = some rt) :
    rt.head? = some cur ∧ blocked ∉ rt :=
  acoFinish_head_and_not_blocked cur blocked _ rt hne hres

/-- Witness for C2 on a concrete run: the returned route `[A, B]` starts at
the current segment `A` and avoids the blocked segment `X`. -/
theorem c2_route_witness :
    ([some "A", some "B"] : List Seg).head? = some (some "A")
    ∧ (some "X" : Seg) ∉ ([some "A", some "B"] : List Seg) :=
  c2_route_avoids_block_and_starts_at_current [("A", [("B", 1)])] (some "X")
    (some "A") (some "B") [] (fun _ => 0) 0 [some "A", some "B"] (by decide)
    (by set_option maxRecDepth 40000 in decide)

/-! ### C8: the search-empty fallback and when it is (not) fatal -/

/-- C8 counterexample: with no path to the destination and an existing route
that is empty (the state of a vehicle whose `update_position` never
succeeded), the filtered fallback is empty and `best_route[0]` raises
`IndexError` — the reroute computation is fatal, it returns no route. -/
theorem c8_empty_fallback_raises_cex :
    (aco_reroute [] (some "B") (some "A") (some "C") [] (fun _ => 0) 0).1 = none := by
  decide

theorem matchBest_ne_nil (opt : Option (List Seg)) (fb : List Seg) (hfb : fb ≠ []) :
    (match opt with
      | some (b :: bs) => b :: bs
      | _ => fb) ≠ [] := by
  rcases opt with _ | br
  · exact hfb
  · rcases br with _ | ⟨b, bs⟩
    · exact hfb
    · simp

theorem acoFinish_isSome (cur blocked : Seg) (best : List Seg) (h : best ≠ []) :
    (acoFinish cur blocked best).isSome = true := by
  cases best with
  | nil => exact absurd rfl h
  | cons b bs => rfl

/-- C8 (amended): for a graph with positive edge weights (the RoadGraph
invariant; a zero weight would make Python raise `ZeroDivisionError` inside a
trial), random draws in `[0,1)` (the range of `random.random`), and an
existing route containing at least one segment other than the blocked one,
`aco_reroute` always returns a route: in particular, when no ant trial
reaches the destination the filtered-fallback recovery is not fatal.  When
the existing route holds nothing but the blocked segment (or is empty) and no
trial succeeds, the fallback is empty and the computation raises instead. -/
theorem c8_reroute_total_amended (g : Graph) (blocked cur dest : Seg)
    (route : List Seg) (rand : ℕ → ℚ) (k : ℕ)
    (_hW : ∀ p ∈ g, ∀ nc ∈ p.2, 0 < nc.2)
    (_hR : ∀ n, 0 ≤ rand n ∧ rand n < 1)
    (hfb : route.filter (fun e => e != blocked) ≠ []) :
    ((aco_reroute g blocked cur dest route rand k).1).isSome = true := by
  unfold aco_reroute
  exact acoFinish_isSome _ _ _ (matchBest_ne_nil _ _ hfb)

/-- Witness for C8: a graph with no usable neighbours, an existing route with
one non-blocked segment — every trial fails, the fallback applies, a route is
returned. -/
theorem c8_reroute_total_witness :
    ((aco_reroute [] (some "X") (some "A") (some "B") [some "C"]
        (fun _ => 0) 0).1).isSome = true :=
  c8_reroute_total_amended [] (some "X") (some "A") (some "B") [some "C"]
    (fun _ => 0) 0 (by simp) (fun _ => by norm_num) (by decide)

/-! ### Lemmas about `listen_and_reroute` (claims C6 and C9) -/

theorem update_position_received (v : Vehicle) (env : TraciEnv) :
    (update_position v env).accidents_received = v.accidents_received := by
  cases hr : env.roadId
  · simp [update_position, hr]
  · cases ht : env.routeOf <;> simp [update_position, hr, ht]

theorem listenGo_received_mono (env : TraciEnv) (cps : List (String × Pt))
    (g : Graph) (cr : ℚ) (l : List (String × AccidentRecord)) (v : Vehicle)
    (evs : List RerouteEvent) (k : ℕ) (x : String)
    (hx : x ∈ v.accidents_received) :
    x ∈ (listenGo env cps g cr l v evs k).vehicle.accidents_received := by
  induction l generalizing v evs k with
  | nil => exact hx
  | cons hd tl ih =>
    obtain ⟨acc_id, data⟩ := hd
    simp only [listenGo]
    split
    · exact ih v evs k hx
    · split
      · exact ih v evs k hx
      · split
        · exact ih v evs k hx
        · split
          · exact ih v evs k hx
          · split
            · split
              · exact List.mem_cons_of_mem _ hx
              · split
                · exact ih _ _ _ (List.mem_cons_of_mem _ hx)
                · exact ih _ _ _ (List.mem_cons_of_mem _ hx)
            · exact ih v evs k hx

theorem listenGo_eventsFor_of_received (env : TraciEnv) (cps : List (String × Pt))
    (g : Graph) (cr : ℚ) (l : List (String × AccidentRecord)) (v : Vehicle)
    (evs : List RerouteEvent) (k : ℕ) (a : String)
    (ha : a ∈ v.accidents_received) :
    eventsFor a (listenGo env cps g cr l v evs k).events = eventsFor a evs := by
  induction l generalizing v evs k with
  | nil => rfl
  | cons hd tl ih =>
    obtain ⟨acc_id, data⟩ := hd
    simp only [listenGo]
    split
    · exact ih v evs k ha
    · rename_i hnotin
      have hne : (acc_id == a) = false :=
        beq_eq_false_iff_ne.mpr (fun h => hnotin (h ▸ ha))
      split
      · exact ih v evs k ha
      · split
        · exact ih v evs k ha
        · split
          · exact ih v evs k ha
          · split
            · split
              · rfl
              · split
                · rw [ih _ _ _ (List.mem_cons_of_mem _ ha)]
                  simp [eventsFor, hne]
                · rw [ih _ _ _ (List.mem_cons_of_mem _ ha)]
                  simp [eventsFor, hne]
            · exact ih v evs k ha

theorem listenGo_eventsFor_len (env : TraciEnv) (cps : List (String × Pt))
    (g : Graph) (cr : ℚ) (l : List (String × AccidentRecord)) (v : Vehicle)
    (evs : List RerouteEvent) (k : ℕ) (a : String) :
    (eventsFor a (listenGo env cps g cr l v evs k).events).length ≤
      (eventsFor a evs).length + (if a ∈ v.accidents_received then 0 else 1) := by
  induction l generalizing v evs k with
  | nil => exact Nat.le_add_right _ _
  | cons hd tl ih =>
    obtain ⟨acc_id, data⟩ := hd
    by_cases ha : a ∈ v.accidents_received
    · rw [listenGo_eventsFor_of_received env cps g cr _ v evs k a ha]
      exact Nat.le_add_right _ _
    · rw [if_neg ha]
      have ihv : ∀ evs' k',
          (eventsFor a (listenGo env cps g cr tl v evs' k').events).length ≤
            (eventsFor a evs').length + 1 := by
        intro evs' k'
        have := ih v evs' k'
        rwa [if_neg ha] at this
      simp only [listenGo]
      split
      · exact ihv evs k
      · split
        · exact ihv evs k
        · split
          · exact ihv evs k
          · split
            · exact ihv evs k
            · split
              · split
                · exact Nat.le_add_right _ _
                · split
                  · by_cases haa : acc_id = a
                    · subst haa
                      rw [listenGo_eventsFor_of_received env cps g cr tl _ _ _ acc_id
                          (List.mem_cons_self _ _)]
                      simp [eventsFor, List.filter_append]
                    · have haa2 : ¬ a = acc_id := fun h => haa h.symm
                      refine le_trans (ih _ _ _) ?_
                      simp [eventsFor, List.filter_append, beq_eq_false_iff_ne.mpr haa,
                        List.mem_cons, ha, haa2]
                  · by_cases haa : acc_id = a
                    · subst haa
                      rw [listenGo_eventsFor_of_received env cps g cr tl _ _ _ acc_id
                          (List.mem_cons_self _ _)]
                      simp [eventsFor, List.filter_append]
                    · have haa2 : ¬ a = acc_id := fun h => haa h.symm
                      refine le_trans (ih _ _ _) ?_
                      simp [eventsFor, List.filter_append, beq_eq_false_iff_ne.mpr haa,
                        List.mem_cons, ha, haa2]
              · exact ihv evs k

theorem listenGo_events_or (env : TraciEnv) (cps : List (String × Pt))
    (g : Graph) (cr : ℚ) (l : List (String × AccidentRecord)) (v : Vehicle)
    (evs : List RerouteEvent) (k : ℕ) (a : String) :
    a ∈ (listenGo env cps g cr l v evs k).vehicle.accidents_received ∨
      eventsFor a (listenGo env cps g cr l v evs k).events = eventsFor a evs := by
  induction l generalizing v evs k with
  | nil => exact Or.inr rfl
  | cons hd tl ih =>
    obtain ⟨acc_id, data⟩ := hd
    simp only [listenGo]
    split
    · exact ih v evs k
    · split
      · exact ih v evs k
      · split
        · exact ih v evs k
        · split
          · exact ih v evs k
          · split
            · by_cases haa : acc_id = a
              · subst haa
                split
                · exact Or.inl (List.mem_cons_self _ _)
                · split
                  · exact Or.inl (listenGo_received_mono env cps g cr tl _ _ _ _
                      (List.mem_cons_self _ _))
                  · exact Or.inl (listenGo_received_mono env cps g cr tl _ _ _ _
                      (List.mem_cons_self _ _))
              · split
                · exact Or.inr rfl
                · split
                  · rcases ih _ _ _ with h | h
                    · exact Or.inl h
                    · refine Or.inr ?_
                      rw [h]
                      simp [eventsFor, List.filter_append, beq_eq_false_iff_ne.mpr haa]
                  · rcases ih _ _ _ with h | h
                    · exact Or.inl h
                    · refine Or.inr ?_
                      rw [h]
                      simp [eventsFor, List.filter_append, beq_eq_false_iff_ne.mpr haa]
            · exact ih v evs k

theorem listenGo_route_last (env : TraciEnv) (cps : List (String × Pt))
    (g : Graph) (cr : ℚ) (l : List (String × AccidentRecord)) (v : Vehicle)
    (evs : List RerouteEvent) (k : ℕ)
    (hI : ∀ e, evs.getLast? = some e → v.route = e.newRoute) :
    ∀ e, (listenGo env cps g cr l v evs k).events.getLast? = some e →
      (listenGo env cps g cr l v evs k).vehicle.route = e.newRoute := by
  induction l generalizing v evs k with
  | nil => exact hI
  | cons hd tl ih =>
    obtain ⟨acc_id, data⟩ := hd
    simp only [listenGo]
    split
    · exact ih v evs k hI
    · split
      · exact ih v evs k hI
      · split
        · exact ih v evs k hI
        · split
          · exact ih v evs k hI
          · split
            · split
              · exact hI
              · split
                · refine ih _ _ _ ?_
                  intro e he
                  rw [List.getLast?_concat] at he
                  cases he
                  rfl
                · rename_i hnew
                  refine ih _ _ _ ?_
                  intro e he
                  rw [List.getLast?_concat] at he
                  cases he
                  simp only [ne_eq, not_not] at hnew
                  exact hnew.symm
            · exact ih v evs k hI

theorem listen_received_mono (v : Vehicle) (env : TraciEnv)
    (accidents : List (String × AccidentRecord)) (cps : List (String × Pt))
    (g : Graph) (cr : ℚ) (x : String) (hx : x ∈ v.accidents_received) :
    x ∈ (listen_and_reroute v env accidents cps g cr).vehicle.accidents_received := by
  have hup : x ∈ (update_position v env).accidents_received := by
    rw [update_position_received]; exact hx
  unfold listen_and_reroute
  cases hp : env.position
  · exact hup
  · exact listenGo_received_mono env cps g cr accidents _ [] 0 x hup

theorem listen_eventsFor_len (v : Vehicle) (env : TraciEnv)
    (accidents : List (String × AccidentRecord)) (cps : List (String × Pt))
    (g : Graph) (cr : ℚ) (a : String) :
    (eventsFor a (listen_and_reroute v env accidents cps g cr).events).length ≤
      (if a ∈ v.accidents_received then 0 else 1) := by
  unfold listen_and_reroute
  cases hp : env.position
  · simp [eventsFor]
  · have := listenGo_eventsFor_len env cps g cr accidents (update_position v env) [] 0 a
    rwa [update_position_received, show eventsFor a [] = [] from rfl,
      List.length_nil, Nat.zero_add] at this

theorem listen_eventsFor_of_received (v : Vehicle) (env : TraciEnv)
    (accidents : List (String × AccidentRecord)) (cps : List (String × Pt))
    (g : Graph) (cr : ℚ) (a : String) (ha : a ∈ v.accidents_received) :
    eventsFor a (listen_and_reroute v env accidents cps g cr).events = [] := by
  unfold listen_and_reroute
  cases hp : env.position
  · rfl
  · have hup : a ∈ (update_position v env).accidents_received := by
      rw [update_position_received]; exact ha
    exact listenGo_eventsFor_of_received env cps g cr accidents _ [] 0 a hup

theorem listen_events_or (v : Vehicle) (env : TraciEnv)
    (accidents : List (String × AccidentRecord)) (cps : List (String × Pt))
    (g : Graph) (cr : ℚ) (a : String) :
    a ∈ (listen_and_reroute v env accidents cps g cr).vehicle.accidents_received ∨
      eventsFor a (listen_and_reroute v env accidents cps g cr).events = [] := by
  unfold listen_and_reroute
  cases hp : env.position
  · exact Or.inr rfl
  · exact listenGo_events_or env cps g cr accidents _ [] 0 a

/-! ### C6: monotone processed-accident set, at-most-once reroute reaction -/

theorem runTrace_received_mono (v : Vehicle) (cs : List ListenCall) (x : String)
    (hx : x ∈ v.accidents_received) :
    x ∈ (runTrace v cs).1.accidents_received := by
  induction cs generalizing v with
  | nil => exact hx
  | cons c cs ih =>
    exact ih _ (listen_received_mono v c.env c.accidents c.cen_positions c.graph
      c.comm_range x hx)

theorem runTrace_eventsFor (v : Vehicle) (cs : List ListenCall) (a : String) :
    (eventsFor a (runTrace v cs).2).length ≤ 1
    ∧ (a ∈ v.accidents_received → (eventsFor a (runTrace v cs).2).length = 0) := by
  induction cs generalizing v with
  | nil => simp [runTrace, eventsFor]
  | cons c cs ih =>
    have hsplit : (runTrace v (c :: cs)).2 =
        (listen_and_reroute v c.env c.accidents c.cen_positions c.graph
          c.comm_range).events ++
        (runTrace (listen_and_reroute v c.env c.accidents c.cen_positions c.graph
          c.comm_range).vehicle cs).2 := rfl
    constructor
    · rcases listen_events_or v c.env c.accidents c.cen_positions c.graph
        c.comm_range a with hmem | hzero
      · -- a is processed (or was already processed) after the first call:
        -- the remaining calls contribute nothing
        have hrest := ((ih _).2 hmem)
        have hcall := listen_eventsFor_len v c.env c.accidents c.cen_positions
          c.graph c.comm_range a
        rw [hsplit]
        simp only [eventsFor, List.filter_append, List.length_append] at hcall hrest ⊢
        have : (if a ∈ v.accidents_received then 0 else 1) ≤ 1 := by split <;> omega
        omega
      · -- no event for a in the first call
        have hrest := (ih (listen_and_reroute v c.env c.accidents c.cen_positions
          c.graph c.comm_range).vehicle).1
        rw [hsplit]
        simp only [eventsFor, List.filter_append, List.length_append] at hzero hrest ⊢
        rw [hzero]
        simpa using hrest
    · intro ha
      have hcall := listen_eventsFor_of_received v c.env c.accidents c.cen_positions
        c.graph c.comm_range a ha
      have hrest := (ih _).2 (listen_received_mono v c.env c.accidents
        c.cen_positions c.graph c.comm_range a ha)
      rw [hsplit]
      simp only [eventsFor, List.filter_append, List.length_append] at hcall hrest ⊢
      simp [hcall, hrest]

/-- C6: a vehicle's processed-accident set `accidents_received` only grows
over any sequence of `listen_and_reroute` calls, and for each accident id the
reroute side effects (route recomputation and `setRoute` attempt) fire at most
once per vehicle over the whole sequence. -/
theorem c6_received_monotone_and_at_most_once (v : Vehicle) (cs : List ListenCall)
    (a : String) :
    (∀ x, x ∈ v.accidents_received → x ∈ (runTrace v cs).1.accidents_received)
    ∧ (eventsFor a (runTrace v cs).2).length ≤ 1 :=
  ⟨fun x hx => runTrace_received_mono v cs x hx, (runTrace_eventsFor v cs a).1⟩

/-- Witness for C6 on a concrete one-call trace. -/
theorem c6_received_witness :
    "ACC0" ∈ (runTrace vC6 [callC6]).1.accidents_received
    ∧ (eventsFor "ACC0" (runTrace vC6 [callC6]).2).length ≤ 1 :=
  ⟨(c6_received_monotone_and_at_most_once vC6 [callC6] "ACC0").1 "ACC0" (by decide),
    (c6_received_monotone_and_at_most_once vC6 [callC6] "ACC0").2⟩

/-! ### C9: a rejected `setRoute` does not leave the stored route unchanged -/

/-- C9 counterexample: the oracle rejects the `setRoute` command
(`setRouteOk` is constantly false, the rejection is caught and logged), yet
the vehicle's stored route afterwards is the freshly computed `[A]` — not the
pre-attempt route `[A, X]`.  The assignment `self.route = new_route` precedes
the `traci.vehicle.setRoute` call, so the rejected attempt leaves the vehicle
changed. -/
theorem c9_rejected_route_changed_cex :
    (update_position vC9 envC9).route = [some "A", some "X"]
    ∧ (listen_and_reroute vC9 envC9 [("ACC1", recC9)] [("E", (0, 0))]
        [("X", [])] 200).events
      = [⟨"ACC1", [some "A"], true, false⟩]
    ∧ (listen_and_reroute vC9 envC9 [("ACC1", recC9)] [("E", (0, 0))]
        [("X", [])] 200).vehicle.route = [some "A"]
    ∧ ([some "A"] : List Seg) ≠ [some "A", some "X"] := by
  refine ⟨by decide, ?_, ?_, by decide⟩ <;>
    set_option maxRecDepth 40000 in decide

/-- C9 (amended): when the traffic oracle rejects the `setRoute` command
issued during `listen_and_reroute`, the failure is swallowed (logged) and the
command is not retried — at most one attempt for the accident — but the
vehicle's state is not left unchanged: its stored route is the newly computed
route that was assigned just before the command was issued. -/
theorem c9_rejected_route_kept_amended (v : Vehicle) (env : TraciEnv)
    (accidents : List (String × AccidentRecord)) (cps : List (String × Pt))
    (g : Graph) (cr : ℚ) (e : RerouteEvent)
    (hlast : (listen_and_reroute v env accidents cps g cr).events.getLast? = some e)
    (_hiss : e.issued = true) (_hrej : e.accepted = false) :
    (listen_and_reroute v env accidents cps g cr).vehicle.route = e.newRoute
    ∧ (eventsFor e.acc_id (listen_and_reroute v env accidents cps g cr).events).length
        = 1 := by
  constructor
  · revert hlast
    unfold listen_and_reroute
    cases hp : env.position
    · intro hlast
      exact absurd hlast (by simp)
    · exact fun hlast => listenGo_route_last env cps g cr accidents _ [] 0
        (fun e' he' => absurd he' (by simp)) e hlast
  · have hmem : e ∈ (listen_and_reroute v env accidents cps g cr).events :=
      List.mem_of_getLast?_eq_some hlast
    have hone : e ∈ eventsFor e.acc_id (listen_and_reroute v env accidents cps g cr).events :=
      List.mem_filter.mpr ⟨hmem, by simp⟩
    have hpos : 0 < (eventsFor e.acc_id
        (listen_and_reroute v env accidents cps g cr).events).length :=
      List.length_pos.mpr (List.ne_nil_of_mem hone)
    have hle := listen_eventsFor_len v env accidents cps g cr e.acc_id
    have : (if e.acc_id ∈ v.accidents_received then 0 else 1) ≤ 1 := by split <;> omega
    omega

/-- Witness for C9 at the concrete rejected-command scenario. -/
theorem c9_rejected_witness :
    (listen_and_reroute vC9 envC9 [("ACC1", recC9)] [("E", (0, 0))]
        [("X", [])] 200).vehicle.route
      = RerouteEvent.newRoute ⟨"ACC1", [some "A"], true, false⟩
    ∧ (eventsFor "ACC1" (listen_and_reroute vC9 envC9 [("ACC1", recC9)]
        [("E", (0, 0))] [("X", [])] 200).events).length = 1 :=
  c9_rejected_route_kept_amended vC9 envC9 [("ACC1", recC9)] [("E", (0, 0))]
    [("X", [])] 200 ⟨"ACC1", [some "A"], true, false⟩
    (by set_option maxRecDepth 40000 in decide) (by decide) (by decide)

/-! ### C1: hop counts along V2V relay chains -/

/-- C1 (code bug): each V2V relay clone carries a hop count two greater than
its parent, never one — `propagate_v2v_message` first sets
`next_message.hop_count = message.hop_count + 1` and then calls
`increment_hop`, which adds one more.  Hop counts along a chain therefore go
0, 2, 4, 6, and in a concrete four-vehicle relay run a clone recorded in the
message history reaches hop count 6, exceeding `MAX_HOP_COUNT = 5` (the hop
guard stops that clone only after it was created and recorded). -/
theorem c1_double_hop_increment :
    (∀ (m : V2VMessage) (vid : String),
      (relayClone m vid).hop_count = m.hop_count + 2
      ∧ (relayClone m vid).hop_count ≠ m.hop_count + 1)
    ∧ msgC1.hop_count = 0
    ∧ 6 ∈ ((propagate envC1 10 msgC1 "veh0" (0, 0) ⟨[], [msgC1]⟩).2.history.map
        V2VMessage.hop_count)
    ∧ MAX_HOP_COUNT < 6 := by
  refine ⟨fun m vid => ⟨rfl, ?_⟩, rfl, ?_, by decide⟩
  · show m.hop_count + 2 ≠ m.hop_count + 1
    omega
  · set_option maxRecDepth 100000 in decide

/-! ### C3: the dispatch fitness formula and its edge bonus -/

/-- C3 counterexample: `ambulance0` is anchored at segment `A_B`; with
accident segment `B_C` the two share endpoint node `B`, so the claim's
formula grants the `0.5` bonus — but the code compares first characters with
first and last with last (`A ≠ B`, `B ≠ C`) and grants none.  With the
ambulance at the accident location and the congestion oracle failing (neutral
default 5.0) the code computes 85/100 − 0 − 5/10 + 0 = 0.35 while the claim's
formula gives 0.85. -/
theorem c3_shared_endpoint_bonus_cex :
    fitness envC3 "ambulance0" 0 0 [("ambulance0", (0, 0))] (some "B_C") = 7 / 20
    ∧ fitness_specShare envC3 "ambulance0" 0 0 [("ambulance0", (0, 0))] (some "B_C")
        = 17 / 20
    ∧ (7 : ℚ) / 20 ≠ 17 / 20 := by
  refine ⟨by decide, by decide, by norm_num⟩

/-- C3 (amended): the fitness of an ambulance with known position equals
readiness/100 − distance/200 − congestion/10 + edgeBonus, where the `0.5`
bonus requires the anchor and accident segment ids to agree on their first
characters or to agree on their last characters (not merely to share an
endpoint node), the `1.0` bonus requires equality, the bonus is `0` for an
absent or empty accident segment, and an ambulance with unknown position gets
the sentinel −9999. -/
theorem c3_fitness_formula_amended (env : CongestionEnv) (individual : String)
    (ax ay : ℚ) (positions : List (String × Pt)) (ae : Option String) :
    fitness env individual ax ay positions ae
      = fitness_specAmended env individual ax ay positions ae := by
  unfold fitness fitness_specAmended edge_bonus
  cases hl : positions.lookup individual
  · rfl
  · rcases ae with _ | ae'
    · cases hanchor : ambulance_anchor_edges.lookup individual <;> simp
    · by_cases hae : ae' = ""
      · subst hae
        cases hanchor : ambulance_anchor_edges.lookup individual <;> simp
      · cases hanchor : ambulance_anchor_edges.lookup individual
        · simp [hae]
        · simp [hae]

/-! ### C7: broadcast timing, involved-set filtering and the dead
notification call -/

/-- C7 (code bug): at `sim_time = 10` accident `ACC_001` is due (elapsed
10 ≥ interval 10) and vehicle `vehB` is eligible — not in the involved set
and at distance 0 ≤ commRange from the registering node — yet no vehicle's
`listen_and_reroute` is ever invoked: the call passes the unexpected keyword
argument `accident_edge`, raises `TypeError` before entering the method body,
and the bare `except` swallows it, so the vehicles come back untouched and
only the ghost attempt list records the try.  The due accident's
last-broadcast time is still reset to 10, and the not-yet-due `ACC_002` is
left entirely unchanged. -/
theorem c7_broadcast_never_notifies :
    ((broadcast cenC7 10 [("vehB", vehC7)] posC7 200).1.accidents.lookup
        "ACC_001").map AccidentRecord.last_time = some 10
    ∧ (broadcast cenC7 10 [("vehB", vehC7)] posC7 200).1.accidents.lookup "ACC_002"
        = cenC7.accidents.lookup "ACC_002"
    ∧ euclid (0, 0) (0, 0) ≤ 200 ∧ "vehB" ∉ (["vehA"] : List String)
    ∧ (broadcast cenC7 10 [("vehB", vehC7)] posC7 200).2.1 = [("vehB", vehC7)]
    ∧ (broadcast cenC7 10 [("vehB", vehC7)] posC7 200).2.2 = [("ACC_001", "vehB")] := by
  refine ⟨by decide, by decide, by decide, by decide, by decide, by decide⟩

/-! ### C4: GA dispatch with a single known ambulance -/

theorem mem_dedupFirstGo (l : List String) (seen : List String) (a : String) :
    a ∈ dedupFirstGo seen l ↔ a ∈ l ∧ a ∉ seen := by
  induction l generalizing seen with
  | nil => simp [dedupFirstGo]
  | cons x xs ih =>
    simp only [dedupFirstGo]
    split
    · rename_i hx
      rw [ih]
      constructor
      · rintro ⟨hm, hs⟩
        exact ⟨List.mem_cons_of_mem _ hm, hs⟩
      · rintro ⟨hm, hs⟩
        rcases List.mem_cons.mp hm with rfl | hm'
        · exact absurd hx hs
        · exact ⟨hm', hs⟩
    · rename_i hx
      simp only [List.mem_cons, ih, List.mem_cons, not_or]
      constructor
      · rintro (rfl | ⟨hm, hne, hs⟩)
        · exact ⟨Or.inl rfl, hx⟩
        · exact ⟨Or.inr hm, hs⟩
      · rintro ⟨rfl | hm, hs⟩
        · exact Or.inl rfl
        · by_cases hax : a = x
          · exact Or.inl hax
          · exact Or.inr ⟨hm, hax, hs⟩

theorem mem_dedupFirst (l : List String) (a : String) :
    a ∈ dedupFirst l ↔ a ∈ l := by
  simp [dedupFirst, mem_dedupFirstGo]

theorem pyMax_fold (f : String → ℚ) (kn : String) (c : ℚ) (hgt : c < f kn) :
    ∀ (xs : List String) (x : String),
      (x = kn ∨ (f x = c ∧ kn ∈ xs)) →
      (∀ a ∈ xs, a ≠ kn → f a = c) →
      xs.foldl (fun best y => if f best < f y then y else best) x = kn := by
  intro xs
  induction xs with
  | nil =>
    intro x hx _
    rcases hx with hxk | ⟨_, h⟩
    · exact hxk
    · cases h
  | cons z zs ih =>
    intro x hx hoth
    simp only [List.foldl_cons]
    have hoth' : ∀ a ∈ zs, a ≠ kn → f a = c :=
      fun a ha hne => hoth a (List.mem_cons_of_mem _ ha) hne
    have hstep : (if f x < f z then z else x) = kn ∨
        (f (if f x < f z then z else x) = c ∧ kn ∈ zs) := by
      rcases hx with hxk | ⟨hfx, hmem⟩
      · by_cases hz : z = kn
        · left
          by_cases hc : f x < f z
          · rw [if_pos hc]; exact hz
          · rw [if_neg hc]; exact hxk
        · have hfz : f z = c := hoth z (List.mem_cons_self _ _) hz
          left
          rw [if_neg ?_]
          · exact hxk
          · rw [hxk, hfz]; exact not_lt_of_gt hgt
      · by_cases hz : z = kn
        · left
          rw [if_pos ?_]
          · exact hz
          · rw [hfx, hz]; exact hgt
        · have hfz : f z = c := hoth z (List.mem_cons_self _ _) hz
          have hmem' : kn ∈ zs := by
            rcases List.mem_cons.mp hmem with h | h
            · exact absurd h.symm hz
            · exact h
          refine Or.inr ⟨?_, hmem'⟩
          by_cases hc : f x < f z
          · rw [if_pos hc]; exact hfz
          · rw [if_neg hc]; exact hfx
    exact ih _ hstep hoth'

theorem pyMax_unique_max (l : List String) (f : String → ℚ) (kn : String) (c : ℚ)
    (hmem : kn ∈ l) (hgt : c < f kn) (hoth : ∀ a ∈ l, a ≠ kn → f a = c) :
    pyMax l f = some kn := by
  cases l with
  | nil => cases hmem
  | cons x xs =>
    simp only [pyMax, Option.some.injEq]
    have hoth' : ∀ a ∈ xs, a ≠ kn → f a = c :=
      fun a ha hne => hoth a (List.mem_cons_of_mem _ ha) hne
    by_cases hx : x = kn
    · exact pyMax_fold f kn c hgt xs x (Or.inl hx) hoth'
    · have hmem' : kn ∈ xs := by
        rcases List.mem_cons.mp hmem with h | h
        · exact absurd h.symm hx
        · exact h
      exact pyMax_fold f kn c hgt xs x
        (Or.inr ⟨hoth x (List.mem_cons_self _ _) hx, hmem'⟩) hoth'

/-- C4 (amended): when every ambulance other than `known` has no known
position, and additionally the known ambulance's fitness beats the −9999
sentinel (true whenever its distance penalty is not astronomically large) and
the known ambulance occurs at all in the final GA population, then
`select_best_ambulance` returns it, for every random stream.  (Without the
membership condition the claim fails: the GA population is built entirely by
random choice, tournament, crossover and mutation, and a stream that never
produces the known ambulance leaves only unknown-position individuals to pick
from.) -/
theorem c4_known_ambulance_selected (env : CongestionEnv) (ax ay : ℚ)
    (positions : List (String × Pt)) (ae : Option String) (rand : ℕ → ℚ)
    (known : String)
    (hoth : ∀ a, a ≠ known → positions.lookup a = none)
    (hfit : -9999 < fitness env known ax ay positions ae)
    (hmem : known ∈ finalPopulation env ax ay positions ae rand) :
    select_best_ambulance env ax ay positions ae rand = some known := by
  unfold select_best_ambulance
  refine pyMax_unique_max _ _ known (-9999) ((mem_dedupFirst _ _).mpr hmem) hfit ?_
  intro a _ hne
  unfold fitness
  rw [hoth a hne]

/-- C4 counterexample: only `ambulance2` has a known position, yet under the
all-zeros random stream every `random.choice` picks the first ambulance id,
the population is twenty copies of `ambulance0` in every generation, and
`select_best_ambulance` returns `ambulance0` — an ambulance with unknown
position — so the known ambulance is not always selected for every random
seed. -/
theorem c4_unknown_selected_cex :
    select_best_ambulance envC3 0 0 posC4 none (fun _ => 0) = some "ambulance0"
    ∧ (posC4.lookup "ambulance2").isSome = true
    ∧ posC4.lookup "ambulance0" = none
    ∧ posC4.lookup "ambulance1" = none
    ∧ ("ambulance0" : String) ≠ "ambulance2" := by
  refine ⟨?_, by decide, by decide, by decide, by decide⟩
  set_option maxRecDepth 1000000 in decide

/-- Witness for C4: with only `ambulance0` known and the all-zeros stream —
under which `ambulance0` does populate the final generation — the GA returns
it. -/
theorem c4_known_ambulance_selected_witness :
    select_best_ambulance envC3 0 0 posC4w none (fun _ => 0) = some "ambulance0" :=
  c4_known_ambulance_selected envC3 0 0 posC4w none (fun _ => 0) "ambulance0"
    (fun a ha => by
      simp only [posC4w, List.lookup, beq_eq_false_iff_ne.mpr ha])
    (by set_option maxRecDepth 1000000 in decide)
    (by set_option maxRecDepth 1000000 in decide)

end V2X
